import Mathlib

/-!
Formal model of `src/cp_coach_mcp.py` (Competitive Programming Coach MCP
server): the Codeforces submission-statistics aggregation inside
`fetch_codeforces_profile`, the contest merge of `fetch_upcoming_contests`,
the narrative renderers `generate_intelligent_roast` and
`generate_intelligent_recommendations`, and the `add_coding_profile` tool.

Modelling conventions (shallow embedding):
* Python floats are modelled by `ℚ`; Python `round` (half-to-even) is
  modelled by Mathlib's `round` (half-up) — the two differ only on exact
  half ties, which no statement below depends on.
* Dicts with optional keys are structures of `Option` fields; `d.get(k, v)`
  is `Option.getD`.
* A Python `set` is a list with insert-if-absent; only its length is read.
* Python's stable sort (`sorted`, `list.sort`) is a stable insertion sort.
* Network calls are inputs: each fetch result is a parameter of the pure
  function that consumes it, and a `try`/`except` boundary is an
  `Except`-valued input.
-/

namespace CPCoach

/-- Substring search over character lists, left to right. -/
def containsAux (needle : List Char) : List Char → Bool
  | [] => needle.isEmpty
  | c :: rest => needle.isPrefixOf (c :: rest) || containsAux needle rest

/-- Python `needle in hay` on strings: substring containment, decidably. -/
def strContainsB (hay needle : String) : Bool :=
  containsAux needle.data hay.data

/-- Python `str.lower()` (ASCII-adequate model, character by character). -/
def pyLower (s : String) : String := String.mk (s.data.map Char.toLower)

/-- Python `str.strip()`: drop whitespace at both ends. -/
def pyStrip (s : String) : String :=
  String.mk (((s.data.dropWhile Char.isWhitespace).reverse.dropWhile
    Char.isWhitespace).reverse)

/-- Python `s.replace(pat, "")` scanning left to right over non-overlapping
occurrences. The fuel is the input length; every step consumes at least one
character, so that much fuel always suffices. -/
def removeAllAux (pat : List Char) : Nat → List Char → List Char
  | _, [] => []
  | 0, l => l
  | Nat.succ fuel, c :: rest =>
    if pat ≠ [] ∧ pat.isPrefixOf (c :: rest) then
      removeAllAux pat fuel (List.drop (pat.length - 1) rest)
    else c :: removeAllAux pat fuel rest

/-- Python `s.replace(pat, "")`. -/
def pyRemove (s pat : String) : String :=
  String.mk (removeAllAux pat.data s.data.length s.data)

/-- Python `sep.join(strings)`. -/
def joinSep (sep : String) : List String → String
  | [] => ""
  | [x] => x
  | x :: xs => x ++ sep ++ joinSep sep xs

/-- Helper for `pyTitle`: split a character list at spaces. -/
def splitSpacesAux : List Char → List Char → List String
  | [], acc => [String.mk acc.reverse]
  | c :: rest, acc =>
    if c = ' ' then String.mk acc.reverse :: splitSpacesAux rest []
    else splitSpacesAux rest (c :: acc)

/-- Python `str.title()` for the space-separated phrases this program builds:
capitalise each word's first character, lower-case the rest. -/
def pyTitle (s : String) : String :=
  joinSep " " ((splitSpacesAux s.data []).map fun w =>
    match w.data with
    | [] => ""
    | c :: rest => String.mk (c.toUpper :: rest.map Char.toLower))

/-- Python `int(q)` on a float value: truncation toward zero. -/
def pyInt (q : ℚ) : Int := if 0 ≤ q then ⌊q⌋ else ⌈q⌉

/-- Python `round(x, 1)`: round to one decimal digit. -/
def roundTo1 (q : ℚ) : ℚ := ((round (10 * q) : ℤ) : ℚ) / 10

/-! ## The submission-statistics aggregation of `fetch_codeforces_profile`
(lines 129-196 of `src/cp_coach_mcp.py`). -/

/-- A problem descriptor of a `user.status` record: `rating` and `tags` are
optional keys of the API payload (lines 156, 158). -/
structure CFProblem where
  contestId : Int
  index : String
  rating : Option Int
  tags : Option (List String)
deriving DecidableEq

/-- One submission record. `verdict` is read with `submission.get("verdict", "")`
(a missing key is the value `""`); `creationTimeSeconds` is read with
`submission.get("creationTimeSeconds", 0)` and so stays optional here. -/
structure Submission where
  verdict : String
  problem : CFProblem
  creationTimeSeconds : Option Int
deriving DecidableEq

/-- The `submission_patterns` verdict tally (lines 134-141). -/
structure SubmissionPatterns where
  total_submissions : Nat
  accepted : Nat
  wrong_answer : Nat
  time_limit : Nat
  runtime_error : Nat
  compilation_error : Nat
deriving DecidableEq

/-- The loop state of the submission analysis (lines 130-141).
`solved_problems` is a Python `set` of strings, modelled as an
insert-if-absent list whose length is the set's cardinality. -/
structure AggState where
  solved_problems : List String
  problem_difficulties : List Int
  problem_tags : List String
  recent_activity : List Int
  patterns : SubmissionPatterns
deriving DecidableEq

/-- Set insertion for the `solved_problems` model. -/
def insertIfAbsent (l : List String) (x : String) : List String :=
  if x ∈ l then l else l ++ [x]

/-- The solved-set key
`f"{submission['problem']['contestId']}{submission['problem']['index']}"`
(line 151): decimal rendering of the contest id, concatenated with the index. -/
def solvedKey (s : Submission) : String :=
  toString s.problem.contestId ++ s.problem.index

/-- `30*24*3600` seconds: the trailing 30-day window. -/
def window30 : Int := 30 * 24 * 3600

/-- One iteration of the submission loop (lines 144-173); `now` is the value of
`datetime.now().timestamp()` read at aggregation time. -/
def aggStep (now : Int) (st : AggState) (s : Submission) : AggState :=
  let st := { st with patterns :=
    { st.patterns with total_submissions := st.patterns.total_submissions + 1 } }
  if s.verdict = "OK" then
    let st := { st with
      patterns := { st.patterns with accepted := st.patterns.accepted + 1 },
      solved_problems := insertIfAbsent st.solved_problems (solvedKey s) }
    let st := match s.problem.rating with
      | some r => { st with problem_difficulties := st.problem_difficulties ++ [r] }
      | none => st
    let st := match s.problem.tags with
      | some ts => { st with problem_tags := st.problem_tags ++ ts }
      | none => st
    if s.creationTimeSeconds.getD 0 > now - window30 then
      { st with recent_activity := st.recent_activity ++ [s.creationTimeSeconds.getD 0] }
    else st
  else if strContainsB s.verdict "WRONG_ANSWER" then
    { st with patterns := { st.patterns with wrong_answer := st.patterns.wrong_answer + 1 } }
  else if strContainsB s.verdict "TIME_LIMIT" then
    { st with patterns := { st.patterns with time_limit := st.patterns.time_limit + 1 } }
  else if strContainsB s.verdict "RUNTIME_ERROR" then
    { st with patterns := { st.patterns with runtime_error := st.patterns.runtime_error + 1 } }
  else if strContainsB s.verdict "COMPILATION_ERROR" then
    { st with patterns :=
      { st.patterns with compilation_error := st.patterns.compilation_error + 1 } }
  else st

/-- The empty starting state (lines 130-141). -/
def initAggState : AggState :=
  { solved_problems := [], problem_difficulties := [], problem_tags := [],
    recent_activity := [], patterns := ⟨0, 0, 0, 0, 0, 0⟩ }

/-- The whole submission pass (the `status == "OK"` branch, lines 143-173). -/
def analyzeSubmissions (now : Int) (subs : List Submission) : AggState :=
  subs.foldl (aggStep now) initAggState

/-- `problemsSolved` of the returned record (line 190): `len(solved_problems)`. -/
def problemsSolved (now : Int) (subs : List Submission) : Nat :=
  (analyzeSubmissions now subs).solved_problems.length

/-- `avg_difficulty` (line 176):
`sum(problem_difficulties) / len(problem_difficulties) if problem_difficulties else 0`. -/
def avg_difficulty (now : Int) (subs : List Submission) : ℚ :=
  let ds := (analyzeSubmissions now subs).problem_difficulties
  if ds = [] then 0 else (ds.sum : ℚ) / (ds.length : ℚ)

/-- `avgDifficulty` of the returned record (line 192): `round(avg_difficulty)`. -/
def avgDifficulty (now : Int) (subs : List Submission) : Int :=
  round (avg_difficulty now subs)

/-- `most_common_tags[tag] = most_common_tags.get(tag, 0) + 1` (lines 177-179)
over an insertion-ordered dict: an association list in first-encounter order of
the keys, counts bumped in place. -/
def bumpTag : List (String × Nat) → String → List (String × Nat)
  | [], t => [(t, 1)]
  | (k, n) :: rest, t =>
    if k = t then (k, n + 1) :: rest else (k, n) :: bumpTag rest t

/-- The tag-frequency dict built from `problem_tags`. -/
def tagCounter (tags : List String) : List (String × Nat) :=
  tags.foldl bumpTag []

/-- Stable insertion used to model Python's stable sort: the new element `x` is
placed after every already-placed `y` with `keep x y = true` and before the
first `y` with `keep x y = false`. -/
def insStable {α : Type} (keep : α → α → Bool) (x : α) : List α → List α
  | [] => [x]
  | y :: ys => if keep x y then y :: insStable keep x ys else x :: y :: ys

/-- Stable sort by left-to-right insertion (model of Python's stable sort). -/
def sortStable {α : Type} (keep : α → α → Bool) (l : List α) : List α :=
  l.foldl (fun acc x => insStable keep x acc) []

/-- Comparison for `sorted(..., key=lambda x: x[1], reverse=True)`: an earlier
element `y` stays in front of a later `x` exactly when `x.2 ≤ y.2`, giving a
descending order with ties kept in original order. -/
def tagKeep (x y : String × Nat) : Bool := x.2 ≤ y.2

/-- `sorted(most_common_tags.items(), key=lambda x: x[1], reverse=True)` (line 182). -/
def sortTagsDesc (l : List (String × Nat)) : List (String × Nat) :=
  sortStable tagKeep l

/-- `topTags` of the returned record (lines 182, 193): the sorted tag counts,
truncated to 5. -/
def topTags (now : Int) (subs : List Submission) : List (String × Nat) :=
  (sortTagsDesc (tagCounter (analyzeSubmissions now subs).problem_tags)).take 5

/-- `recentActivity` of the returned record (line 195): `len(recent_activity)`. -/
def recentActivity (now : Int) (subs : List Submission) : Nat :=
  (analyzeSubmissions now subs).recent_activity.length

/-- `accuracyRate` of the returned record (line 196):
`round(accepted / max(total_submissions, 1) * 100, 1)`. -/
def accuracyRate (now : Int) (subs : List Submission) : ℚ :=
  let p := (analyzeSubmissions now subs).patterns
  roundTo1 ((p.accepted : ℚ) / ((max p.total_submissions 1 : ℕ) : ℚ) * 100)

/-- The accepted submissions: those with `verdict == "OK"` exactly. -/
def acceptedSubs (subs : List Submission) : List Submission :=
  subs.filter fun s => s.verdict == "OK"

/-- Modelled from the spec: "unique-solved count is computed from a set keyed by
(contestId, problemIndex)" — the number of distinct `(contestId, index)` pairs
among the accepted submissions, the quantity claim C1 asserts `solvedCount`
equals. The code instead keys the set by the concatenated string `solvedKey`. -/
def specDistinctSolvedPairs (subs : List Submission) : Nat :=
  (((acceptedSubs subs).map fun s => (s.problem.contestId, s.problem.index)).dedup).length

/-! ## The contest merge of `fetch_upcoming_contests` (lines 223-332). -/

/-- One merged contest entry (the dict appended at lines 237-244 and analogous
blocks; `duration` values are whole seconds in every branch). -/
structure Contest where
  platform : String
  name : String
  start_time : Int
  duration : Int
  url : String
  type : String
deriving DecidableEq

/-- What one source's `try` block contributes to `contests`: its entries on
success, nothing when its `except` arm caught a failure (malformed payload,
transport error, ...). -/
def sourceEntries : Except String (List Contest) → List Contest
  | .ok l => l
  | .error _ => []

/-- Comparison for `contests.sort(key=lambda x: x["start_time"])`: ascending,
stable. -/
def contestKeep (x y : Contest) : Bool := y.start_time ≤ x.start_time

/-- Line 326: the stable ascending sort by `start_time`. -/
def sortContests (l : List Contest) : List Contest := sortStable contestKeep l

/-- `fetch_upcoming_contests` (lines 223-332) as a function of its sources'
outcomes and of `current_time`: concatenate every source's contribution in
order (a failing source contributes `[]` and aborts nothing), sort ascending by
`start_time` (line 326), keep the strict window
`start_time > now and start_time < now + 30*24*3600` (line 330), and truncate
to the first 15 (line 332). The function is total: no source outcome makes it
fail. -/
def fetch_upcoming_contests (sources : List (Except String (List Contest)))
    (now : Int) : List Contest :=
  let contests := (sources.map sourceEntries).flatten
  let sorted := sortContests contests
  let upcoming := sorted.filter fun c =>
    decide (now < c.start_time) && decide (c.start_time < now + window30)
  upcoming.take 15

/-! ## Profile records

The Python code passes profiles around as dicts whose keys may be absent
(`profile.get(key, default)`), so every field is an `Option`; `hasError`
models `"error" in profile`. -/

/-- A profile dict as consumed by the renderers and produced by the fetchers. -/
structure Profile where
  platform : Option String
  handle : Option String
  rating : Option Int
  maxRating : Option Int
  rank : Option String
  maxRank : Option String
  problemsSolved : Option Int
  registrationTime : Option Int
  avgDifficulty : Option Int
  topTags : Option (List (String × Nat))
  submissionPatterns : Option SubmissionPatterns
  recentActivity : Option Nat
  accuracyRate : Option ℚ
  favoriteTopics : Option (List String)
  note : Option String
  hasError : Bool
deriving DecidableEq

/-- A dict with no keys at all (and no error marker). -/
def emptyProfile : Profile :=
  { platform := none, handle := none, rating := none, maxRating := none,
    rank := none, maxRank := none, problemsSolved := none,
    registrationTime := none, avgDifficulty := none, topTags := none,
    submissionPatterns := none, recentActivity := none, accuracyRate := none,
    favoriteTopics := none, note := none, hasError := false }

/-- A Codeforces user-info record (`user.get(...)` fields, lines 185-191). -/
structure UserInfo where
  handle : Option String
  rating : Option Int
  maxRating : Option Int
  rank : Option String
  maxRank : Option String
  registrationTimeSeconds : Option Int

/-- The dict `fetch_codeforces_profile` returns on success (lines 184-197),
as a function of the user-info payload, of `datetime.now().timestamp()` and of
the submission list of the `user.status` payload. -/
def fetch_codeforces_profile_ok (user : UserInfo) (now : Int)
    (subs : List Submission) : Profile :=
  { emptyProfile with
    handle := some (user.handle.getD ""),
    rating := some (user.rating.getD 0),
    maxRating := some (user.maxRating.getD 0),
    rank := some (user.rank.getD "unrated"),
    maxRank := some (user.maxRank.getD "unrated"),
    problemsSolved := some (problemsSolved now subs : Int),
    registrationTime := some (user.registrationTimeSeconds.getD 0),
    avgDifficulty := some (avgDifficulty now subs),
    topTags := some (topTags now subs),
    submissionPatterns := some (analyzeSubmissions now subs).patterns,
    recentActivity := some (recentActivity now subs),
    accuracyRate := some (accuracyRate now subs) }

/-- `fetch_leetcode_profile` (lines 201-210): fixed placeholder data. -/
def fetch_leetcode_profile (handle : String) : Profile :=
  { emptyProfile with
    handle := some handle, rating := some 1500, problemsSolved := some 150,
    note := some "LeetCode data is limited due to API restrictions" }

/-- `fetch_codechef_profile` (lines 212-221): fixed placeholder data. -/
def fetch_codechef_profile (handle : String) : Profile :=
  { emptyProfile with
    handle := some handle, rating := some 1400, problemsSolved := some 80,
    note := some "CodeChef data is limited due to API restrictions" }

/-! ## `generate_intelligent_roast` (lines 334-440)

Each block of the per-profile roast loop becomes one list-valued definition
(empty list = the block appended nothing); `roast_parts` is their
concatenation in source order. -/

/-- Rating-drop analysis (lines 357-359). -/
def roastDropParts (p : Profile) : List String :=
  let rating := p.rating.getD 0
  let max_rating := p.maxRating.getD rating
  if max_rating > 0 ∧ rating < max_rating - 200 then
    ["peaked at " ++ toString max_rating ++ " but dropped to " ++ toString rating
      ++ "? That's a " ++ toString (max_rating - rating) ++ " point nosedive! 📉"]
  else []

/-- Difficulty-versus-rating analysis (lines 361-366). -/
def roastDiffParts (p : Profile) : List String :=
  let rating := p.rating.getD 0
  let avg_difficulty := p.avgDifficulty.getD 0
  if avg_difficulty > 0 ∧ rating > 0 then
    if avg_difficulty < rating - 300 then
      ["solving " ++ toString avg_difficulty ++ "-rated problems with a "
        ++ toString rating ++ " rating? Playing it safe much? 😴"]
    else if avg_difficulty > rating + 200 then
      ["attempting " ++ toString avg_difficulty ++ "-rated problems with "
        ++ toString rating ++ " rating? Ambitious but clearly not working! 🎯❌"]
    else []
  else []

/-- The tail of the low-accuracy roast f-string at line 370: everything after
the interpolated `accuracy_rate`. -/
def lotteryFragment : String :=
  "% accuracy? You submit code like you're playing the lottery! 🎰"

/-- Accuracy analysis (lines 369-372). -/
def roastAccParts (p : Profile) : List String :=
  let accuracy_rate := p.accuracyRate.getD 0
  if accuracy_rate < 20 then
    [toString accuracy_rate ++ lotteryFragment]
  else if accuracy_rate < 40 then
    [toString accuracy_rate ++ "% accuracy - more wrong answers than a broken GPS! 🗺️💀"]
  else []

/-- Favourite-topic analysis (lines 374-389). In the source,
`top_tags[0]` is a tuple, hence always truthy, so `top_tag` is always the
first tag and `tag_count` (assigned at line 377) is never used. -/
def roastTagParts (p : Profile) : List String :=
  let top_tags := p.topTags.getD []
  match top_tags with
  | [] => []
  | (top_tag, _) :: _ =>
    (if top_tag = "implementation" then
      ["loves 'implementation' problems - basically the 'easy mode' of competitive programming! 🎮"]
    else if top_tag = "math" then
      ["math problems enthusiast but still can't calculate a path to higher rating! 🧮"]
    else if top_tag = "greedy" then
      ["greedy algorithm lover - greedy for easy problems, stingy with effort! 💰"]
    else if top_tag = "dp" then
      ["DP specialist but can't dynamically program your way to success! 📊"]
    else []) ++
    (if top_tags.length < 3 then
      ["only comfortable with " ++ toString top_tags.length
        ++ " topic types? Variety is the spice of life! 🌶️"]
    else [])

/-- Recent-activity analysis (lines 391-395). -/
def roastActivityParts (p : Profile) : List String :=
  let recent_activity := p.recentActivity.getD 0
  if recent_activity = 0 then
    ["zero activity in the last 30 days - did you give up or just forget your password? 😴"]
  else if recent_activity < 5 then
    ["only " ++ toString recent_activity
      ++ " submissions this month? My grandmother codes more actively! 👵"]
  else []

/-- Submission-pattern analysis (lines 397-406); `if submission_patterns:` is
dict truthiness, i.e. the key present with a non-empty dict. The float factors
`0.4` and `0.2` are the exact rationals `2/5` and `1/5` in this model. -/
def roastPatternParts (p : Profile) : List String :=
  match p.submissionPatterns with
  | none => []
  | some sp =>
    (if (sp.wrong_answer : ℚ) > (sp.total_submissions : ℚ) * (2 / 5) then
      ["specializes in Wrong Answer verdicts - at least you're consistent! ❌"]
    else []) ++
    (if (sp.time_limit : ℚ) > (sp.total_submissions : ℚ) * (1 / 5) then
      ["Time Limit Exceeded expert - writes code slower than internet explorer! ⏰💀"]
    else [])

/-- `roast_parts` in source order (drop, difficulty, accuracy, tags, activity,
patterns). -/
def roastParts (p : Profile) : List String :=
  roastDropParts p ++ roastDiffParts p ++ roastAccParts p ++ roastTagParts p
    ++ roastActivityParts p ++ roastPatternParts p

/-- Lines 412-418: how the first up-to-three roast parts are spliced into the
roast sentence. -/
def combineRoastParts : List String → String
  | [] => ""
  | [p0] => "You've " ++ p0 ++ "!"
  | [p0, p1] => "You've " ++ p0 ++ " and " ++ p1 ++ "!"
  | p0 :: p1 :: p2 :: _ =>
    "Where do I even start? You've " ++ p0 ++ ", " ++ p1 ++ ", and " ++ p2 ++ "!"

/-- The contextual conclusion (lines 420-426); when `problems_solved ≥ 100`
and `rating ≤ 0` no branch fires and nothing is appended. -/
def roastConclusion (p : Profile) : String :=
  let rating := p.rating.getD 0
  let problems_solved := p.problemsSolved.getD 0
  if problems_solved < 100 then
    " With only " ++ toString problems_solved
      ++ " problems solved, you're still in tutorial mode! 🎮"
  else if rating > 0 ∧ rating < 1200 then
    " " ++ toString problems_solved
      ++ " problems solved but still can't break the newbie barrier! 🚧"
  else if rating ≥ 1200 then
    " Despite " ++ toString problems_solved
      ++ " problems solved, you're stuck in mediocrity! 📊"
  else ""

/-- One iteration of the roast loop (lines 338-431), for a profile without
error marker: the main roast when any part fired, the fallback otherwise. -/
def roastOne (p : Profile) : String :=
  let platform := p.platform.getD "Unknown"
  let handle := p.handle.getD "Anonymous"
  let rating := p.rating.getD 0
  let problems_solved := p.problemsSolved.getD 0
  let parts := roastParts p
  if parts = [] then
    "🔥 **" ++ handle ++ "** (" ++ toString rating ++ " on " ++ pyTitle platform
      ++ "): " ++ toString problems_solved
      ++ " problems solved - not enough data to properly roast you, but I'm sure there's plenty to work with! 😈"
  else
    "🔥 **" ++ handle ++ "** (" ++ toString rating ++ " on " ++ pyTitle platform
      ++ "): " ++ combineRoastParts parts ++ roastConclusion p

/-- `generate_intelligent_roast` (lines 334-440): skip error profiles, roast
the rest, and wrap the roasts (joined by blank lines) in the fixed header and
footer; the fixed no-profiles message when nothing was roasted. -/
def generate_intelligent_roast (profiles : List Profile) : String :=
  let roasts := (profiles.filter fun p => !p.hasError).map roastOne
  if roasts = [] then
    "🔥 **No profiles to roast!** Add your coding handles first, then come back for a proper intellectual destruction! 🧠💀"
  else
    "🔥 **INTELLIGENT ROAST ANALYSIS** 🔥\n\n" ++ joinSep "\n\n" roasts
      ++ "\n\n💀 **Analysis complete!** These roasts are based on your actual coding patterns - the data doesn't lie! 📊💪"

/-! ## `generate_intelligent_recommendations` (lines 442-709) -/

/-- The known-company list (line 450). -/
def companies : List String :=
  ["google", "meta", "facebook", "amazon", "microsoft", "apple", "netflix",
   "uber", "airbnb", "twitter", "linkedin", "salesforce"]

/-- Lines 448-455: the first company of `companies` that is a substring of the
lower-cased goal is extracted; the goal becomes the lower-cased goal with that
company removed and stripped. Without a match the goal is returned unchanged
(not lower-cased) with the empty company. -/
def parseCompanyGoal (goal : String) : String × String :=
  let goal_lower := pyLower goal
  match companies.find? (fun comp => strContainsB goal_lower comp) with
  | some comp => (comp, pyStrip (pyRemove goal_lower comp))
  | none => ("", goal)

/-- The state of the profile-analysis loop (lines 458-500).
`last_avg_difficulty` models the Python loop variable `avg_difficulty`, which
leaks out of the loop and is read again at line 589: it holds the value from
the last profile without error marker (0 before any assignment, a state the
guarded callers never observe). -/
structure RecAnalysis where
  max_rating : Int
  total_problems : Int
  platform_data : List (String × Profile)
  favorite_topics : List String
  weak_topics : List String
  accuracy_issues : List String
  recent_patterns : List String
  last_avg_difficulty : Int

/-- `platform_data[platform] = profile` over an insertion-ordered dict. -/
def upsertPD : List (String × Profile) → String → Profile → List (String × Profile)
  | [], k, v => [(k, v)]
  | (k0, v0) :: rest, k, v =>
    if k0 = k then (k0, v) :: rest else (k0, v0) :: upsertPD rest k v

/-- One iteration of the analysis loop (lines 466-500). -/
def recAnalyzeStep (st : RecAnalysis) (p : Profile) : RecAnalysis :=
  if p.hasError then st
  else
    let platform := p.platform.getD "unknown"
    let rating := p.rating.getD 0
    let problems := p.problemsSolved.getD 0
    let accuracy := p.accuracyRate.getD 0
    let avg_difficulty := p.avgDifficulty.getD 0
    let topics := p.favoriteTopics.getD []
    let recent_activity := p.recentActivity.getD 0
    let st := { st with
      max_rating := if rating > st.max_rating then rating else st.max_rating,
      total_problems := st.total_problems + problems,
      platform_data := upsertPD st.platform_data platform p,
      favorite_topics := st.favorite_topics ++ topics.take 3,
      last_avg_difficulty := avg_difficulty }
    let st :=
      if accuracy < 40 then
        { st with accuracy_issues := st.accuracy_issues ++
          ["Very low accuracy on " ++ platform ++ " (" ++ toString accuracy
            ++ "%) - focus on testing and debugging"] }
      else if accuracy < 65 then
        { st with accuracy_issues := st.accuracy_issues ++
          ["Moderate accuracy on " ++ platform ++ " (" ++ toString accuracy
            ++ "%) - improve problem analysis"] }
      else st
    let st :=
      if rating > 0 ∧ avg_difficulty > 0 then
        if avg_difficulty < rating - 200 then
          { st with weak_topics := st.weak_topics ++
            ["Playing too safe on " ++ platform ++ " - attempt harder problems"] }
        else if avg_difficulty > rating + 300 then
          { st with weak_topics := st.weak_topics ++
            ["Overreaching on " ++ platform ++ " - build fundamentals first"] }
        else st
      else st
    if recent_activity = 0 then
      { st with recent_patterns := st.recent_patterns ++
        ["No recent activity on " ++ platform ++ " - consistency needed"] }
    else st

/-- The whole analysis loop. -/
def recAnalyze (profiles : List Profile) : RecAnalysis :=
  profiles.foldl recAnalyzeStep ⟨0, 0, [], [], [], [], [], 0⟩

/-- Lines 503-522: `(level, cf_range, lc_difficulty)` from the maximal rating
(`lc_difficulty` is computed but never used afterwards). -/
def recLevel (max_rating : Int) : String × String × String :=
  if max_rating = 0 then ("Beginner", "800-1000", "Easy")
  else if max_rating < 1200 then ("Newbie", "800-1200", "Easy to Medium")
  else if max_rating < 1600 then ("Pupil/Specialist", "1000-1400", "Medium")
  else if max_rating < 1900 then ("Expert", "1200-1700", "Medium to Hard")
  else ("Master+", "1400-2000+", "Hard")

/-- The title block (lines 525-532). -/
def recTitle (company goal level : String) : String :=
  "🎯 **Personalized Recommendations"
    ++ (if company ≠ "" then " for " ++ pyTitle company else "")
    ++ (if goal ≠ "" ∧ goal ≠ "general" then " (" ++ pyTitle goal ++ ")" else "")
    ++ " - " ++ level ++ " Level**\n\n"

/-- The profile-summary block (lines 535-547). -/
def recSummary (platform_data : List (String × Profile)) : String :=
  "📊 **Your Coding Profile Analysis:**\n"
    ++ String.join (platform_data.map fun pd =>
      let platform := pd.1
      let data := pd.2
      let handle := data.handle.getD "N/A"
      let rating := data.rating.getD 0
      let solved := data.problemsSolved.getD 0
      let accuracy := data.accuracyRate.getD 0
      let topics := data.favoriteTopics.getD []
      "• **" ++ pyTitle platform ++ "** (" ++ handle ++ "): " ++ toString rating
        ++ " rating, " ++ toString solved ++ " solved, " ++ toString accuracy
        ++ "% accuracy\n"
        ++ (if topics ≠ [] then
          "  → Strong in: " ++ joinSep ", " (topics.take 3) ++ "\n" else ""))
    ++ "\n"

/-- The company-specific block (lines 549-601): empty when no company was
extracted; otherwise the header plus the branch of the matched company (for a
known company outside the four branches, the header alone). -/
def companySection (company : String) (favorite_topics accuracy_issues : List String)
    (max_rating avg_difficulty : Int) : String :=
  if company = "" then ""
  else
    "🏢 **" ++ pyTitle company ++ "-Specific Strategy:**\n"
    ++ (if company = "google" ∨ company = "alphabet" then
        "• **Google's Focus**: System design, scalability, algorithmic thinking\n"
        ++ "• **Key Topics**: Graphs, Trees, Dynamic Programming, System Design\n"
        ++ "• **Specific Problems**: \n"
        ++ "  - Word Ladder (BFS/Graph traversal - Google loves this pattern)\n"
        ++ "  - Design Search Autocomplete (System design component)\n"
        ++ "  - Maximum Subarray (Classic DP - tests optimization thinking)\n"
        ++ (if ¬ (favorite_topics.map pyLower).contains "graphs" then
          "• **CRITICAL**: You haven't mastered graphs yet - Google heavily tests graph algorithms!\n"
          ++ "  → Start with: Number of Islands, Clone Graph, Course Schedule\n"
        else "")
        ++ (if max_rating < 1400 then
          "• **Rating Gap**: Google typically expects 1400+ CF rating equivalent\n"
          ++ "  → Focus on medium CF problems (1200-1400 range)\n"
        else "")
      else if company = "meta" ∨ company = "facebook" then
        "• **Meta's Focus**: Product thinking, user-centric solutions, clean code\n"
        ++ "• **Key Topics**: Arrays, Strings, Hash Tables, Trees, System Design\n"
        ++ "• **Specific Problems**:\n"
        ++ "  - Valid Parentheses (String manipulation - Meta classic)\n"
        ++ "  - Binary Tree Right Side View (Tree traversal with twist)\n"
        ++ "  - Design News Feed (System design for social media)\n"
        ++ (if accuracy_issues.any (fun issue => strContainsB issue "low accuracy") then
          "• **CRITICAL**: Meta values bug-free code - improve your accuracy first!\n"
          ++ "  → Practice easier problems until 80%+ accuracy\n"
        else "")
      else if company = "amazon" then
        "• **Amazon's Focus**: Leadership principles, scalable solutions, optimization\n"
        ++ "• **Key Topics**: Arrays, Strings, Trees, System Design, Optimization\n"
        ++ "• **Specific Problems**:\n"
        ++ "  - Two Sum (Classic - but explain multiple approaches)\n"
        ++ "  - Merge k Sorted Lists (Optimization and heap usage)\n"
        ++ "  - Design Amazon's Recommendation System\n"
        ++ (if avg_difficulty < max_rating - 100 then
          "• **Challenge Yourself**: Amazon tests problem-solving depth\n"
          ++ "  → Attempt problems 100-200 points above your rating\n"
        else "")
      else if company = "microsoft" then
        "• **Microsoft's Focus**: Clean code, debugging skills, practical solutions\n"
        ++ "• **Key Topics**: Strings, Arrays, Linked Lists, Trees, System Design\n"
        ++ "• **Specific Problems**:\n"
        ++ "  - Reverse Words in a String (String manipulation)\n"
        ++ "  - Serialize and Deserialize Binary Tree (Complex tree operations)\n"
        ++ "  - Design Microsoft Teams Chat System\n"
      else "")
    ++ "\n"

/-- The goal-specific block (lines 604-670): the interview/job branch (also
taken whenever a company was extracted), or the contest branch, or nothing. -/
def goalSection (goal company : String) (max_rating : Int)
    (accuracy_issues favorite_topics : List String) : String :=
  if goal = "interview" ∨ goal = "job" ∨ company ≠ "" then
    "💼 **Interview Preparation Strategy:**\n"
    ++ (if max_rating < 1000 then
        "• **Phase 1 (4-6 weeks)**: Master fundamentals\n"
        ++ "  → Arrays: Two Sum, Best Time to Buy Stock, Contains Duplicate\n"
        ++ "  → Strings: Valid Anagram, Valid Parentheses, Longest Common Prefix\n"
        ++ "  → Basic Math: Palindrome Number, Reverse Integer\n"
      else if max_rating < 1400 then
        "• **Phase 2 (6-8 weeks)**: Intermediate patterns\n"
        ++ "  → Two Pointers: Container With Most Water, 3Sum\n"
        ++ "  → Sliding Window: Longest Substring Without Repeating Characters\n"
        ++ "  → Trees: Maximum Depth, Same Tree, Invert Binary Tree\n"
      else
        "• **Advanced Phase (8-10 weeks)**: Complex algorithms\n"
        ++ "  → Advanced DP: Edit Distance, Longest Increasing Subsequence\n"
        ++ "  → Graph Algorithms: Word Ladder, Course Schedule II\n"
        ++ "  → System Design: Design Twitter, Design URL Shortener\n")
    ++ (if accuracy_issues ≠ [] then
        "• **Accuracy Improvement Plan**:\n"
        ++ String.join ((accuracy_issues.take 2).map fun issue =>
            "  → " ++ issue ++ "\n")
        ++ "  → Practice: Solve 5 easy problems daily for 1 week\n"
      else "")
    ++ (let missing_topics := ["arrays", "strings", "trees", "graphs", "dp"].filter
          fun topic => ¬ favorite_topics.any fun fav => strContainsB (pyLower fav) topic
      if missing_topics ≠ [] then
        "• **Missing Essential Topics**: " ++ joinSep ", " missing_topics ++ "\n"
        ++ String.join ((missing_topics.take 2).map fun topic =>
          if topic = "dp" then
            "  → DP: Start with Fibonacci → Climbing Stairs → House Robber\n"
          else if topic = "graphs" then
            "  → Graphs: Number of Islands → Clone Graph → Course Schedule\n"
          else if topic = "trees" then
            "  → Trees: Maximum Depth → Same Tree → Binary Tree Paths\n"
          else "")
      else "")
  else if goal = "contest" ∨ goal = "competitive" ∨ goal = "cp" then
    "🏆 **Contest Performance Strategy:**\n"
    ++ (if max_rating < 1200 then
        "• **Target**: Consistently solve Div3 A, B problems\n"
        ++ "• **Practice Schedule**: \n"
        ++ "  → Week 1-2: Last 10 Div3 contests, problems A-B only\n"
        ++ "  → Week 3-4: Attempt C problems, time limit 45 mins\n"
        ++ "• **Speed Goals**: A in <10 mins, B in <20 mins\n"
      else if max_rating < 1600 then
        "• **Target**: Solve Div2 A, B, C consistently\n"
        ++ "• **Focus Areas**: Greedy algorithms, basic number theory\n"
        ++ "• **Specific Practice**:\n"
        ++ "  → Greedy: Activity Selection, Fractional Knapsack\n"
        ++ "  → Number Theory: GCD problems, Prime factorization\n"
      else
        "• **Target**: Solve Div2 A-D, attempt E\n"
        ++ "• **Advanced Topics**: Segment trees, advanced DP, graph theory\n"
        ++ "• **Contest Strategy**: Fast A-C, then deep focus on D-E\n")
  else ""

/-- The tailored-problems block (lines 672-687). -/
def specificSection (favorite_topics weak_topics : List String) : String :=
  "\n🎯 **Specific Problems Tailored for You:**\n"
    ++ (if (favorite_topics.map pyLower).contains "implementation" then
      "• **Implementation** (your strength): Try 'Spiral Matrix', 'Rotate Image'\n"
    else "")
    ++ (if (favorite_topics.map pyLower).contains "math" then
      "• **Math** (your strength): Try 'Happy Number', 'Ugly Number II'\n"
    else "")
    ++ (if (favorite_topics.map pyLower).contains "greedy" then
      "• **Greedy** (your strength): Try 'Jump Game II', 'Gas Station'\n"
    else "")
    ++ (if weak_topics ≠ [] then
      "• **Weak Areas to Address**:\n"
      ++ String.join ((weak_topics.take 2).map fun weak => "  → " ++ weak ++ "\n")
    else "")

/-- The activity-concerns block (lines 689-694). -/
def activitySection (recent_patterns : List String) : String :=
  if recent_patterns ≠ [] then
    "\n⚠️ **Activity Concerns**:\n"
    ++ String.join ((recent_patterns.take 2).map fun pat => "• " ++ pat ++ "\n")
    ++ "• **Comeback Plan**: Start with 1 easy problem daily for motivation\n"
  else ""

/-- Python `max` over a non-empty sequence (the guarded call at line 704; the
empty case, on which Python would raise, is given the junk value 0). -/
def listMax : List ℚ → ℚ
  | [] => 0
  | a :: rest => rest.foldl max a

/-- Line 704: `max(70, int(max(accuracies) + 10))`. -/
def maxAccMetric (profiles : List Profile) : Int :=
  let accs := (profiles.filter fun p => !p.hasError).map fun p => p.accuracyRate.getD 0
  max 70 (pyInt (listMax accs + 10))

/-- The 30-day plan and metrics block (lines 696-707). -/
def planSection (profiles : List Profile) (cf_range : String) : String :=
  "\n📅 **Your Personalized 30-Day Action Plan:**\n"
    ++ "**Week 1**: Address accuracy issues + practice weak topics\n"
    ++ "**Week 2**: Focus on company-specific problem patterns\n"
    ++ "**Week 3**: Mock interviews + timed problem solving\n"
    ++ "**Week 4**: Advanced topics + system design basics\n"
    ++ "\n💡 **Success Metrics to Track:**\n"
    ++ "• Maintain " ++ toString (maxAccMetric profiles) ++ "%+ accuracy\n"
    ++ "• Solve problems in " ++ cf_range ++ " difficulty range\n"
    ++ "• Complete at least 3 problems daily\n"
    ++ "• Participate in 2+ contests weekly\n"

/-- `generate_intelligent_recommendations` (lines 442-709). -/
def generate_intelligent_recommendations (profiles : List Profile)
    (goal : String) : String :=
  if profiles = [] ∨ profiles.all (fun p => p.hasError) then
    "❌ **No valid profiles found!** Add your coding handles first."
  else
    match parseCompanyGoal goal with
    | (company, goal) =>
      let a := recAnalyze profiles
      match recLevel a.max_rating with
      | (level, cf_range, _) =>
        recTitle company goal level
          ++ recSummary a.platform_data
          ++ companySection company a.favorite_topics a.accuracy_issues
              a.max_rating a.last_avg_difficulty
          ++ goalSection goal company a.max_rating a.accuracy_issues a.favorite_topics
          ++ specificSection a.favorite_topics a.weak_topics
          ++ activitySection a.recent_patterns
          ++ planSection profiles cf_range

/-! ## `add_coding_profile` (lines 714-799)

The tool is modelled as a pure function of the three platform fetchers'
outcomes (each a function of the handle), of the session registry
(`user_handles["default_user"]`, a deduplicating insertion-ordered list) and
of the two arguments; it returns the response text and the new registry.
The model is total: the Python exception path (`except ... McpError`) can
only be reached by an exception escaping the fetchers, which themselves
catch everything. -/

/-- What a profile fetcher produces: a profile dict, or a dict carrying the
`"error"` key (`{"error": ...}`). -/
inductive FetchResult where
  | profile (p : Profile)
  | error (msg : String)
deriving DecidableEq

/-- Lines 734-738. -/
def handleRequiredText : String :=
  "❌ **Handle Required!**\n\nPlease provide your username/handle.\n\nExample: `add_coding_profile codeforces tourist`"

/-- Lines 751-754. -/
def unsupportedPlatformText : String :=
  "❌ **Unsupported Platform!**\n\nSupported platforms: codeforces, leetcode, codechef"

/-- Lines 756-760. -/
def notFoundText (handle platform : String) : String :=
  "❌ **Profile Not Found!**\n\nCouldn't find handle '" ++ handle ++ "' on "
    ++ platform ++ ".\n\nDouble-check your username and try again!"

/-- The platform dispatch (lines 744-754): which fetcher runs, `none` for an
unsupported platform. -/
def platformFetch (cf lc cc : String → FetchResult)
    (platform handle : String) : Option FetchResult :=
  if platform = "codeforces" then some (cf handle)
  else if platform = "leetcode" then some (lc handle)
  else if platform = "codechef" then some (cc handle)
  else none

/-- The success response (lines 772-792), built after the registry update. -/
def addProfileSuccessText (platform handle : String) (p : Profile)
    (registry : List String) : String :=
  "✅ **Profile Verified & Remembered!**\n\n"
    ++ "🏆 **" ++ pyTitle platform ++ "**: " ++ handle ++ "\n"
    ++ "📊 **Current Rating**: "
    ++ (match p.rating with | some r => toString r | none => "N/A") ++ "\n"
    ++ "📈 **Max Rating**: "
    ++ (match p.maxRating with | some r => toString r | none => "N/A") ++ "\n"
    ++ "✅ **Problems Solved**: "
    ++ (match p.problemsSolved with | some n => toString n | none => "N/A") ++ "\n"
    ++ (match p.rank with | some r => "🎖️ **Rank**: " ++ r ++ "\n" | none => "")
    ++ (match p.avgDifficulty with
        | some d => if d > 0 then "🎯 **Avg Problem Difficulty**: " ++ toString d ++ "\n" else ""
        | none => "")
    ++ (match p.accuracyRate with
        | some a => "🎲 **Accuracy Rate**: " ++ toString a ++ "%\n"
        | none => "")
    ++ "\n💾 **Handle Saved!** Now you can simply use:\n"
    ++ "🔥 `roast_my_coding` (no handles needed!)\n"
    ++ "🎯 `recommend_problems interview` (no handles needed!)\n\n"
    ++ "📝 **Stored Handles**: " ++ joinSep ", " registry

/-- `add_coding_profile` (lines 726-793): the empty handle short-circuits
before anything else; then the platform is lower-cased, the matching fetcher
runs, an error marker yields the not-found message, and only a success appends
`platform:handle` (if absent) to the registry. -/
def add_coding_profile (cf lc cc : String → FetchResult)
    (registry : List String) (platform handle : String) : String × List String :=
  if handle = "" then (handleRequiredText, registry)
  else
    let platform := pyLower platform
    match platformFetch cf lc cc platform handle with
    | none => (unsupportedPlatformText, registry)
    | some (.error _) => (notFoundText handle platform, registry)
    | some (.profile p) =>
      let handle_string := platform ++ ":" ++ handle
      let registry :=
        if handle_string ∈ registry then registry else registry ++ [handle_string]
      (addProfileSuccessText platform handle p registry, registry)

/-! ## Lemmas: strings and substrings -/

lemma strData_append (a b : String) : (a ++ b).data = a.data ++ b.data := rfl

/-- `needle` occurs as a contiguous substring of `hay`. -/
def strInfix (needle hay : String) : Prop := needle.data <:+: hay.data

lemma strInfix_self (s : String) : strInfix s s := List.infix_refl _

lemma strInfix_appendL (a : String) {n b : String} (h : strInfix n b) :
    strInfix n (a ++ b) := by
  unfold strInfix at *
  rw [strData_append]
  obtain ⟨s, t, hst⟩ := h
  exact ⟨a.data ++ s, t, by rw [← hst]; simp [List.append_assoc]⟩

lemma strInfix_appendR (b : String) {n a : String} (h : strInfix n a) :
    strInfix n (a ++ b) := by
  unfold strInfix at *
  rw [strData_append]
  obtain ⟨s, t, hst⟩ := h
  exact ⟨s, t ++ b.data, by rw [← hst]; simp [List.append_assoc]⟩

lemma strInfix_trans {a b c : String} (h1 : strInfix a b) (h2 : strInfix b c) :
    strInfix a c :=
  List.IsInfix.trans h1 h2

lemma strInfix_joinSep {s : String} (sep : String) {l : List String} (h : s ∈ l) :
    strInfix s (joinSep sep l) := by
  induction l with
  | nil => cases h
  | cons x xs ih =>
    cases xs with
    | nil =>
      rcases List.mem_singleton.mp h with rfl
      exact strInfix_self s
    | cons y ys =>
      have hjoin : joinSep sep (x :: y :: ys) = x ++ sep ++ joinSep sep (y :: ys) := rfl
      rcases List.mem_cons.mp h with rfl | hmem
      · rw [hjoin]
        exact strInfix_appendR _ (strInfix_appendR _ (strInfix_self s))
      · rw [hjoin]
        exact strInfix_appendL _ (ih hmem)

/-! ## Lemmas: the stable insertion sort -/

lemma mem_insStable {α : Type} (keep : α → α → Bool) (x : α) (l : List α) (z : α) :
    z ∈ insStable keep x l ↔ z ∈ x :: l := by
  induction l with
  | nil => simp [insStable]
  | cons y ys ih =>
    cases h : keep x y with
    | true =>
      simp only [insStable, h, if_true, List.mem_cons, ih]
      tauto
    | false => simp [insStable, h]

lemma pairwise_insStable {α : Type} {P : α → α → Prop} {keep : α → α → Bool}
    (hT : ∀ a b, keep a b = true → P b a)
    (hF : ∀ a b, keep a b = false → P a b)
    (htrans : ∀ a b c, P a b → P b c → P a c)
    (x : α) {l : List α} (hl : l.Pairwise P) :
    (insStable keep x l).Pairwise P := by
  induction l with
  | nil => simp [insStable]
  | cons y ys ih =>
    rw [List.pairwise_cons] at hl
    obtain ⟨hy, hys⟩ := hl
    cases h : keep x y with
    | true =>
      have hins : insStable keep x (y :: ys) = y :: insStable keep x ys := by
        simp [insStable, h]
      rw [hins, List.pairwise_cons]
      refine ⟨?_, ih hys⟩
      intro z hz
      rcases List.mem_cons.mp ((mem_insStable keep x ys z).mp hz) with rfl | hz'
      · exact hT _ y h
      · exact hy z hz'
    | false =>
      have hins : insStable keep x (y :: ys) = x :: y :: ys := by
        simp [insStable, h]
      rw [hins, List.pairwise_cons]
      refine ⟨?_, List.pairwise_cons.mpr ⟨hy, hys⟩⟩
      intro z hz
      rcases List.mem_cons.mp hz with rfl | hz'
      · exact hF _ _ h
      · exact htrans _ y z (hF _ _ h) (hy z hz')

lemma pairwise_sortStable_aux {α : Type} {P : α → α → Prop} {keep : α → α → Bool}
    (hT : ∀ a b, keep a b = true → P b a)
    (hF : ∀ a b, keep a b = false → P a b)
    (htrans : ∀ a b c, P a b → P b c → P a c) :
    ∀ (l acc : List α), acc.Pairwise P →
      (l.foldl (fun acc x => insStable keep x acc) acc).Pairwise P := by
  intro l
  induction l with
  | nil => intro acc h; exact h
  | cons x xs ih =>
    intro acc h
    exact ih _ (pairwise_insStable hT hF htrans x h)

lemma pairwise_sortStable {α : Type} {P : α → α → Prop} {keep : α → α → Bool}
    (hT : ∀ a b, keep a b = true → P b a)
    (hF : ∀ a b, keep a b = false → P a b)
    (htrans : ∀ a b c, P a b → P b c → P a c) (l : List α) :
    (sortStable keep l).Pairwise P :=
  pairwise_sortStable_aux hT hF htrans l [] (by simp)

lemma mem_sortStable_aux {α : Type} (keep : α → α → Bool) (z : α) :
    ∀ (l acc : List α),
      (z ∈ l.foldl (fun acc x => insStable keep x acc) acc ↔ z ∈ acc ∨ z ∈ l) := by
  intro l
  induction l with
  | nil => intro acc; simp
  | cons x xs ih =>
    intro acc
    rw [List.foldl_cons, ih, mem_insStable]
    simp only [List.mem_cons]
    tauto

lemma mem_sortStable {α : Type} (keep : α → α → Bool) (l : List α) (z : α) :
    z ∈ sortStable keep l ↔ z ∈ l := by
  unfold sortStable
  rw [mem_sortStable_aux]
  simp

/-! ## Lemmas: the submission loop, component by component -/

/-- The per-submission ratings of the rated accepted submissions, in order. -/
def ratedAcceptedRatings (subs : List Submission) : List Int :=
  (acceptedSubs subs).filterMap fun s => s.problem.rating

/-- The tags contributed by the accepted submissions, in order. -/
def acceptedTags (subs : List Submission) : List String :=
  (((acceptedSubs subs).map fun s => s.problem.tags.getD []).flatten)

/-- The solved-set keys of the accepted submissions, in order. -/
def solvedKeys (subs : List Submission) : List String :=
  (acceptedSubs subs).map solvedKey

/-- Repeated set insertion. -/
def insertAll (l : List String) (ks : List String) : List String :=
  ks.foldl insertIfAbsent l

lemma aggStep_total (now : Int) (st : AggState) (s : Submission) :
    (aggStep now st s).patterns.total_submissions =
      st.patterns.total_submissions + 1 := by
  unfold aggStep
  by_cases h : s.verdict = "OK"
  · simp only [h, if_true, if_pos]
    cases s.problem.rating <;> cases s.problem.tags <;> split <;> rfl
  · simp only [h, if_false, if_neg, not_false_iff]
    split_ifs <;> rfl

lemma aggStep_accepted (now : Int) (st : AggState) (s : Submission) :
    (aggStep now st s).patterns.accepted =
      st.patterns.accepted + if s.verdict = "OK" then 1 else 0 := by
  unfold aggStep
  by_cases h : s.verdict = "OK"
  · simp only [h, if_true, if_pos]
    cases s.problem.rating <;> cases s.problem.tags <;> split <;> rfl
  · simp only [h, if_false, if_neg, not_false_iff]
    split_ifs <;> rfl

lemma aggStep_solved (now : Int) (st : AggState) (s : Submission) :
    (aggStep now st s).solved_problems =
      if s.verdict = "OK" then insertIfAbsent st.solved_problems (solvedKey s)
      else st.solved_problems := by
  unfold aggStep
  by_cases h : s.verdict = "OK"
  · simp only [h, if_true, if_pos]
    cases s.problem.rating <;> cases s.problem.tags <;> split <;> rfl
  · simp only [h, if_false, if_neg, not_false_iff]
    split_ifs <;> rfl

lemma aggStep_difficulties (now : Int) (st : AggState) (s : Submission) :
    (aggStep now st s).problem_difficulties =
      st.problem_difficulties ++
        if s.verdict = "OK" then s.problem.rating.toList else [] := by
  unfold aggStep
  by_cases h : s.verdict = "OK"
  · simp only [h, if_true, if_pos]
    cases s.problem.rating <;> cases s.problem.tags <;> split <;> simp
  · simp only [h, if_false, if_neg, not_false_iff]
    split_ifs <;> simp

lemma aggStep_tags (now : Int) (st : AggState) (s : Submission) :
    (aggStep now st s).problem_tags =
      st.problem_tags ++
        if s.verdict = "OK" then s.problem.tags.getD [] else [] := by
  unfold aggStep
  by_cases h : s.verdict = "OK"
  · simp only [h, if_true, if_pos]
    cases s.problem.rating <;> cases s.problem.tags <;> split <;> simp
  · simp only [h, if_false, if_neg, not_false_iff]
    split_ifs <;> simp

lemma foldl_aggStep_total (now : Int) (subs : List Submission) :
    ∀ st : AggState, (subs.foldl (aggStep now) st).patterns.total_submissions =
      st.patterns.total_submissions + subs.length := by
  induction subs with
  | nil => intro st; simp
  | cons s rest ih =>
    intro st
    rw [List.foldl_cons, ih, aggStep_total]
    simp only [List.length_cons]
    omega

lemma foldl_aggStep_accepted (now : Int) (subs : List Submission) :
    ∀ st : AggState, (subs.foldl (aggStep now) st).patterns.accepted =
      st.patterns.accepted + (acceptedSubs subs).length := by
  induction subs with
  | nil => intro st; simp [acceptedSubs]
  | cons s rest ih =>
    intro st
    rw [List.foldl_cons, ih, aggStep_accepted]
    by_cases h : s.verdict = "OK" <;>
      simp [acceptedSubs, List.filter_cons, h] <;> omega

lemma foldl_aggStep_difficulties (now : Int) (subs : List Submission) :
    ∀ st : AggState, (subs.foldl (aggStep now) st).problem_difficulties =
      st.problem_difficulties ++ ratedAcceptedRatings subs := by
  induction subs with
  | nil => intro st; simp [ratedAcceptedRatings, acceptedSubs]
  | cons s rest ih =>
    intro st
    rw [List.foldl_cons, ih, aggStep_difficulties]
    by_cases h : s.verdict = "OK" <;>
      cases hr : s.problem.rating <;>
        simp [ratedAcceptedRatings, acceptedSubs, List.filter_cons, h, hr,
          List.filterMap_cons, List.append_assoc]

lemma foldl_aggStep_tags (now : Int) (subs : List Submission) :
    ∀ st : AggState, (subs.foldl (aggStep now) st).problem_tags =
      st.problem_tags ++ acceptedTags subs := by
  induction subs with
  | nil => intro st; simp [acceptedTags, acceptedSubs]
  | cons s rest ih =>
    intro st
    rw [List.foldl_cons, ih, aggStep_tags]
    by_cases h : s.verdict = "OK" <;>
      simp [acceptedTags, acceptedSubs, List.filter_cons, h, List.append_assoc]

lemma foldl_aggStep_solved (now : Int) (subs : List Submission) :
    ∀ st : AggState, (subs.foldl (aggStep now) st).solved_problems =
      insertAll st.solved_problems (solvedKeys subs) := by
  induction subs with
  | nil => intro st; simp [insertAll, solvedKeys, acceptedSubs]
  | cons s rest ih =>
    intro st
    rw [List.foldl_cons, ih, aggStep_solved]
    by_cases h : s.verdict = "OK" <;>
      simp [insertAll, solvedKeys, acceptedSubs, List.filter_cons, h]

/-! ## Lemmas: the solved set -/

lemma insertIfAbsent_toFinset (l : List String) (x : String) :
    (insertIfAbsent l x).toFinset = insert x l.toFinset := by
  unfold insertIfAbsent
  by_cases h : x ∈ l
  · rw [if_pos h]
    exact (Finset.insert_eq_self.mpr (List.mem_toFinset.mpr h)).symm
  · rw [if_neg h, List.toFinset_append]
    simp only [List.toFinset_cons, List.toFinset_nil, insert_emptyc_eq]
    rw [Finset.union_comm]
    exact (Finset.insert_eq x l.toFinset).symm

lemma insertIfAbsent_nodup (l : List String) (x : String) (h : l.Nodup) :
    (insertIfAbsent l x).Nodup := by
  unfold insertIfAbsent
  by_cases hx : x ∈ l
  · rwa [if_pos hx]
  · rw [if_neg hx]
    simp [List.nodup_append, h, hx]

lemma insertAll_nodup (ks : List String) :
    ∀ l, l.Nodup → (insertAll l ks).Nodup := by
  induction ks with
  | nil => intro l h; exact h
  | cons k ks ih =>
    intro l h
    exact ih _ (insertIfAbsent_nodup l k h)

lemma insertAll_toFinset (ks : List String) :
    ∀ l, (insertAll l ks).toFinset = l.toFinset ∪ ks.toFinset := by
  induction ks with
  | nil => intro l; simp [insertAll]
  | cons k ks ih =>
    intro l
    show (insertAll (insertIfAbsent l k) ks).toFinset = _
    rw [ih, insertIfAbsent_toFinset]
    simp [List.toFinset_cons, Finset.insert_union, Finset.union_insert]

lemma problemsSolved_eq (now : Int) (subs : List Submission) :
    problemsSolved now subs = (solvedKeys subs).dedup.length := by
  unfold problemsSolved analyzeSubmissions
  rw [foldl_aggStep_solved]
  have h1 : (insertAll initAggState.solved_problems (solvedKeys subs)).Nodup :=
    insertAll_nodup _ _ (by simp [initAggState])
  have h2 : (insertAll initAggState.solved_problems (solvedKeys subs)).toFinset
      = (solvedKeys subs).toFinset := by
    rw [insertAll_toFinset]
    simp [initAggState]
  have h3 := List.toFinset_card_of_nodup h1
  rw [h2] at h3
  rw [← h3, List.card_toFinset]

/-! ## Claim theorems: the statistics aggregation -/

/-- C1 (amended): `solvedCount` equals the number of distinct string keys
`str(contestId) + problemIndex` among the accepted submissions — a problem
accepted several times still counts once, and `solvedCount` is at most the
number of accepted submissions.  (The claim's "distinct (contestId,
problemIndex) pairs" fails: the set key is the concatenated string, which can
identify distinct pairs, see the counterexample.) -/
theorem solvedCount_distinct_keys (now : Int) (subs : List Submission) :
    problemsSolved now subs = (solvedKeys subs).dedup.length
    ∧ problemsSolved now subs ≤ (acceptedSubs subs).length := by
  refine ⟨problemsSolved_eq now subs, ?_⟩
  rw [problemsSolved_eq]
  calc (solvedKeys subs).dedup.length ≤ (solvedKeys subs).length :=
        (List.dedup_sublist _).length_le
    _ = (acceptedSubs subs).length := by simp [solvedKeys]

/-- An accepted submission to problem `2A` of contest `1`. -/
def c1sub1 : Submission :=
  { verdict := "OK",
    problem := { contestId := 1, index := "2A", rating := none, tags := none },
    creationTimeSeconds := none }

/-- An accepted submission to problem `A` of contest `12`: a different
`(contestId, problemIndex)` pair, but the same concatenated key `"12A"`. -/
def c1sub2 : Submission :=
  { verdict := "OK",
    problem := { contestId := 12, index := "A", rating := none, tags := none },
    creationTimeSeconds := none }

/-- C1 (counterexample): two accepted submissions to the distinct problems
`(1, "2A")` and `(12, "A")` collide on the concatenated key `"12A"`, so the
reported `solvedCount` is 1 while the distinct pair count is 2. -/
theorem solvedCount_ne_distinct_pairs :
    problemsSolved 0 [c1sub1, c1sub2] = 1
    ∧ specDistinctSolvedPairs [c1sub1, c1sub2] = 2
    ∧ problemsSolved 0 [c1sub1, c1sub2] ≠ specDistinctSolvedPairs [c1sub1, c1sub2] := by
  decide

lemma analyze_accepted_eq (now : Int) (subs : List Submission) :
    (analyzeSubmissions now subs).patterns.accepted = (acceptedSubs subs).length := by
  unfold analyzeSubmissions
  rw [foldl_aggStep_accepted]
  simp [initAggState]

lemma analyze_total_eq (now : Int) (subs : List Submission) :
    (analyzeSubmissions now subs).patterns.total_submissions = subs.length := by
  unfold analyzeSubmissions
  rw [foldl_aggStep_total]
  simp [initAggState]

lemma round_nonneg' {q : ℚ} (h : 0 ≤ q) : 0 ≤ round q := by
  rw [round_eq]
  have h0 : ⌊(1 / 2 : ℚ)⌋ = 0 := by
    rw [Int.floor_eq_iff] <;> norm_num
  calc (0:ℤ) = ⌊(1 / 2 : ℚ)⌋ := h0.symm
    _ ≤ ⌊q + 1 / 2⌋ := Int.floor_mono (by linarith)

lemma round_le_of_le {q : ℚ} {n : ℤ} (h : q ≤ (n : ℚ)) : round q ≤ n := by
  have h1 : round q ≤ round ((n : ℚ)) := by
    rw [round_eq, round_eq]
    exact Int.floor_mono (by linarith)
  simpa [round_intCast] using h1

lemma roundTo1_nonneg {q : ℚ} (h : 0 ≤ q) : 0 ≤ roundTo1 q := by
  unfold roundTo1
  have h1 : (0:ℤ) ≤ round (10 * q) := round_nonneg' (by linarith)
  exact div_nonneg (by exact_mod_cast h1) (by norm_num)

lemma roundTo1_le_100 {q : ℚ} (h : q ≤ 100) : roundTo1 q ≤ 100 := by
  unfold roundTo1
  have h1 : round (10 * q) ≤ (1000 : ℤ) := round_le_of_le (by push_cast; linarith)
  rw [div_le_iff₀ (by norm_num : (0:ℚ) < 10)]
  calc ((round (10 * q) : ℤ) : ℚ) ≤ ((1000 : ℤ) : ℚ) := by exact_mod_cast h1
    _ = 100 * 10 := by norm_num

/-- C5: `accuracyRate` is `round(100 * accepted / max(total, 1), 1)` where
`accepted` counts the accepted submissions and `total` all submissions; it
always lies in `[0, 100]` and is 0 for the empty submission list. -/
theorem accuracyRate_spec (now : Int) (subs : List Submission) :
    accuracyRate now subs
      = roundTo1 (100 * ((acceptedSubs subs).length : ℚ)
          / ((max subs.length 1 : ℕ) : ℚ))
    ∧ 0 ≤ accuracyRate now subs ∧ accuracyRate now subs ≤ 100
    ∧ (subs.length = 0 → accuracyRate now subs = 0) := by
  have ha := analyze_accepted_eq now subs
  have ht := analyze_total_eq now subs
  have hle : ((acceptedSubs subs).length : ℚ) ≤ ((max subs.length 1 : ℕ) : ℚ) := by
    have h1 : (acceptedSubs subs).length ≤ subs.length := List.length_filter_le _ _
    have h2 : subs.length ≤ max subs.length 1 := le_max_left _ _
    exact_mod_cast le_trans h1 h2
  have hpos : (0:ℚ) < ((max subs.length 1 : ℕ) : ℚ) := by
    have h2 : (1:ℕ) ≤ max subs.length 1 := le_max_right _ _
    exact_mod_cast lt_of_lt_of_le Nat.zero_lt_one h2
  refine ⟨?_, ?_, ?_, ?_⟩
  · simp only [accuracyRate, ha, ht]
    exact congrArg roundTo1 (by ring)
  · simp only [accuracyRate]
    exact roundTo1_nonneg (by positivity)
  · simp only [accuracyRate, ha, ht]
    apply roundTo1_le_100
    have hdiv : ((acceptedSubs subs).length : ℚ) / ((max subs.length 1 : ℕ) : ℚ) ≤ 1 :=
      (div_le_one hpos).mpr hle
    nlinarith
  · intro h0
    rcases List.length_eq_zero.mp h0 with rfl
    simp only [accuracyRate, analyzeSubmissions, List.foldl_nil, initAggState]
    norm_num [roundTo1]

/-- C5 witness: the bound and the zero case are realised on the empty
submission list. -/
theorem accuracyRate_witness : accuracyRate 0 [] = 0 :=
  (accuracyRate_spec 0 []).2.2.2 rfl

/-- C6: `avgDifficulty` is 0 when no accepted submission carries a rating, and
otherwise the rounded mean of the ratings of the rated accepted submissions. -/
theorem avgDifficulty_spec (now : Int) (subs : List Submission) :
    avgDifficulty now subs =
      if ratedAcceptedRatings subs = [] then 0
      else round (((ratedAcceptedRatings subs).sum : ℚ)
        / ((ratedAcceptedRatings subs).length : ℚ)) := by
  have hd : (analyzeSubmissions now subs).problem_difficulties
      = ratedAcceptedRatings subs := by
    unfold analyzeSubmissions
    rw [foldl_aggStep_difficulties]
    simp [initAggState]
  unfold avgDifficulty avg_difficulty
  rw [hd]
  by_cases h : ratedAcceptedRatings subs = []
  · simp [h]
  · simp [h]

/-! ## Claim theorems: the contest merge -/

/-- C3: the merged contest list has at most 15 entries, every entry's
`start_time` lies strictly between `now` and `now + 30` days, and the list is
sorted ascending by `start_time`. -/
theorem fetch_upcoming_contests_spec
    (sources : List (Except String (List Contest))) (now : Int) :
    (fetch_upcoming_contests sources now).length ≤ 15
    ∧ (∀ c ∈ fetch_upcoming_contests sources now,
        now < c.start_time ∧ c.start_time < now + window30)
    ∧ (fetch_upcoming_contests sources now).Pairwise
        (fun a b => a.start_time ≤ b.start_time) := by
  refine ⟨?_, ?_, ?_⟩
  · simp only [fetch_upcoming_contests, List.length_take]
    exact inf_le_left
  · intro c hc
    simp only [fetch_upcoming_contests] at hc
    have hc' := List.Sublist.mem hc (List.take_sublist _ _)
    have hcond := List.of_mem_filter hc'
    simpa using hcond
  · simp only [fetch_upcoming_contests]
    apply List.Pairwise.sublist (List.take_sublist _ _)
    apply List.Pairwise.filter
    unfold sortContests
    apply pairwise_sortStable
      (P := fun a b : Contest => a.start_time ≤ b.start_time)
    · intro a b h
      exact of_decide_eq_true h
    · intro a b h
      exact le_of_not_le (of_decide_eq_false h)
    · intro a b c h1 h2
      exact le_trans h1 h2

/-- C4: a contest source that fails (its `try` produced an exception, e.g. on
a malformed payload) contributes exactly nothing: the merged result is the one
of the same call with that source replaced by an empty success, so every other
source's entries are untouched — and the merge itself, being a total function,
never fails. -/
theorem fetch_upcoming_contests_source_isolated
    (pre post : List (Except String (List Contest))) (e : String) (now : Int) :
    fetch_upcoming_contests (pre ++ Except.error e :: post) now
      = fetch_upcoming_contests (pre ++ Except.ok [] :: post) now := by
  unfold fetch_upcoming_contests
  simp [sourceEntries]

/-! ## Lemmas: the tag counter -/

lemma keys_bumpTag (t : String) : ∀ acc : List (String × Nat),
    (bumpTag acc t).map Prod.fst =
      if t ∈ acc.map Prod.fst then acc.map Prod.fst
      else acc.map Prod.fst ++ [t] := by
  intro acc
  induction acc with
  | nil => simp [bumpTag]
  | cons kv rest ih =>
    obtain ⟨k0, n0⟩ := kv
    by_cases hk : k0 = t
    · subst hk
      simp [bumpTag]
    · have hne : ¬ t = k0 := fun h => hk h.symm
      by_cases ht : t ∈ rest.map Prod.fst <;>
        simp [bumpTag, hk, ih, ht, hne]

lemma bumpTag_count_point (t : String) :
    ∀ (acc : List (String × Nat)) (f : String → Nat),
      (acc.map Prod.fst).Nodup →
      (∀ p ∈ acc, p.2 = f p.1) →
      (t ∉ acc.map Prod.fst → f t = 0) →
      ∀ p ∈ bumpTag acc t, p.2 = if p.1 = t then f p.1 + 1 else f p.1 := by
  intro acc
  induction acc with
  | nil =>
    intro f _ _ hft p hp
    simp only [bumpTag, List.mem_singleton] at hp
    subst hp
    simp [hft (by simp)]
  | cons kv rest ih =>
    obtain ⟨k0, n0⟩ := kv
    intro f hnd hcnt hft p hp
    have hnd0 : k0 ∉ rest.map Prod.fst := (List.nodup_cons.mp (by simpa using hnd)).1
    have hndr : (rest.map Prod.fst).Nodup := (List.nodup_cons.mp (by simpa using hnd)).2
    by_cases hk : k0 = t
    · subst hk
      simp only [bumpTag, if_pos rfl] at hp
      rcases List.mem_cons.mp hp with rfl | hpr
      · have hfk : n0 = f k0 := by simpa using hcnt (k0, n0) (by simp)
        simp [hfk]
      · have h1 : p.2 = f p.1 := hcnt p (List.mem_cons_of_mem _ hpr)
        have h2 : p.1 ≠ k0 := by
          intro he
          exact hnd0 (he ▸ List.mem_map_of_mem Prod.fst hpr)
        simp [h1, h2]
    · simp only [bumpTag, if_neg hk] at hp
      rcases List.mem_cons.mp hp with rfl | hpr
      · have hfk : n0 = f k0 := by simpa using hcnt (k0, n0) (by simp)
        simp [hfk, hk]
      · refine ih f hndr (fun q hq => hcnt q (List.mem_cons_of_mem _ hq)) ?_ p hpr
        intro hnt
        refine hft ?_
        have hne : ¬ t = k0 := fun h => hk h.symm
        simp [hnt, hne]

lemma tagCounter_inv (tags : List String) :
    ∀ (acc : List (String × Nat)) (f : String → Nat),
      (acc.map Prod.fst).Nodup →
      (∀ p ∈ acc, p.2 = f p.1) →
      (∀ k, k ∉ acc.map Prod.fst → f k = 0) →
      ((tags.foldl bumpTag acc).map Prod.fst).Nodup
      ∧ (∀ p ∈ tags.foldl bumpTag acc, p.2 = f p.1 + tags.count p.1)
      ∧ (∀ k, k ∉ (tags.foldl bumpTag acc).map Prod.fst → f k + tags.count k = 0) := by
  induction tags with
  | nil =>
    intro acc f hnd hcnt hout
    refine ⟨hnd, ?_, ?_⟩
    · intro p hp
      simpa using hcnt p hp
    · intro k hk
      simpa using hout k hk
  | cons t rest ih =>
    intro acc f hnd hcnt hout
    rw [List.foldl_cons]
    have hnd' : ((bumpTag acc t).map Prod.fst).Nodup := by
      rw [keys_bumpTag]
      by_cases ht : t ∈ acc.map Prod.fst
      · rwa [if_pos ht]
      · rw [if_neg ht]
        simp [List.nodup_append, hnd, ht]
    have hcnt' : ∀ p ∈ bumpTag acc t,
        p.2 = if p.1 = t then f p.1 + 1 else f p.1 :=
      bumpTag_count_point t acc f hnd hcnt (hout t)
    have hout' : ∀ k, k ∉ (bumpTag acc t).map Prod.fst →
        (if k = t then f k + 1 else f k) = 0 := by
      intro k hk
      rw [keys_bumpTag] at hk
      by_cases ht : t ∈ acc.map Prod.fst
      · rw [if_pos ht] at hk
        have hkt : k ≠ t := fun he => hk (he ▸ ht)
        rw [if_neg hkt]
        exact hout k hk
      · rw [if_neg ht] at hk
        simp only [List.mem_append, List.mem_singleton, not_or] at hk
        rw [if_neg hk.2]
        exact hout k hk.1
    obtain ⟨h1, h2, h3⟩ := ih (bumpTag acc t) _ hnd' hcnt' hout'
    refine ⟨h1, ?_, ?_⟩
    · intro p hp
      have hcount := h2 p hp
      rw [hcount, List.count_cons]
      by_cases hpt : p.1 = t
      · rw [if_pos hpt, if_pos (by simp [hpt])]
        omega
      · rw [if_neg hpt, if_neg (by simp [beq_iff_eq]; exact fun h => hpt h.symm)]
        omega
    · intro k hk
      have hzero := h3 k hk
      rw [List.count_cons]
      by_cases hkt : k = t
      · rw [if_pos hkt] at hzero
        rw [if_pos (by simp [hkt])]
        omega
      · rw [if_neg hkt] at hzero
        rw [if_neg (by simp [beq_iff_eq]; exact fun h => hkt h.symm)]
        omega

lemma tagCounter_count (tags : List String) :
    ∀ p ∈ tagCounter tags, p.2 = tags.count p.1 := by
  intro p hp
  have h := (tagCounter_inv tags [] (fun _ => 0) (by simp) (by simp)
    (by simp)).2.1 p hp
  simpa using h

lemma bumpTag_pos (t : String) :
    ∀ acc : List (String × Nat), (∀ p ∈ acc, 1 ≤ p.2) →
      ∀ p ∈ bumpTag acc t, 1 ≤ p.2 := by
  intro acc
  induction acc with
  | nil =>
    intro _ p hp
    simp only [bumpTag, List.mem_singleton] at hp
    subst hp
    exact le_refl 1
  | cons kv rest ih =>
    obtain ⟨k0, n0⟩ := kv
    intro h p hp
    by_cases hk : k0 = t
    · subst hk
      simp only [bumpTag, if_pos rfl] at hp
      rcases List.mem_cons.mp hp with rfl | hpr
      · omega
      · exact h p (List.mem_cons_of_mem _ hpr)
    · simp only [bumpTag, if_neg hk] at hp
      rcases List.mem_cons.mp hp with rfl | hpr
      · exact h (k0, n0) (by simp)
      · exact ih (fun q hq => h q (List.mem_cons_of_mem _ hq)) p hpr

lemma tagCounter_pos (tags : List String) :
    ∀ p ∈ tagCounter tags, 1 ≤ p.2 := by
  suffices h : ∀ (l acc : List (String × Nat)), (∀ p ∈ acc, 1 ≤ p.2) →
      ∀ p ∈ List.foldl bumpTag acc tags, 1 ≤ p.2 by
    exact h [] [] (by simp)
  intro l
  induction tags with
  | nil => intro acc h; simpa using h
  | cons t rest ih =>
    intro acc h
    rw [List.foldl_cons]
    exact ih _ (bumpTag_pos t acc h)

/-! ## Lemmas: stability of the tag sort -/

lemma tagKeep_true {a b : String × Nat} (h : tagKeep a b = true) : a.2 ≤ b.2 := by
  simpa [tagKeep] using h

lemma tagKeep_false {a b : String × Nat} (h : tagKeep a b = false) : b.2 ≤ a.2 := by
  have hn : ¬ (a.2 ≤ b.2) := by simpa [tagKeep] using h
  exact le_of_not_le hn

lemma tagPairwise_insStable (x : String × Nat) {l : List (String × Nat)}
    (h : l.Pairwise (fun a b => b.2 ≤ a.2)) :
    (insStable tagKeep x l).Pairwise (fun a b => b.2 ≤ a.2) :=
  @pairwise_insStable (String × Nat) (fun a b => b.2 ≤ a.2) tagKeep
    (fun _ _ hab => tagKeep_true hab)
    (fun _ _ hab => tagKeep_false hab)
    (fun _ _ _ h1 h2 => le_trans h2 h1) x l h

lemma sortTagsDesc_pairwise (l : List (String × Nat)) :
    (sortTagsDesc l).Pairwise (fun a b => b.2 ≤ a.2) :=
  @pairwise_sortStable (String × Nat) (fun a b => b.2 ≤ a.2) tagKeep
    (fun _ _ hab => tagKeep_true hab)
    (fun _ _ hab => tagKeep_false hab)
    (fun _ _ _ h1 h2 => le_trans h2 h1) l

lemma filter_insStable_tag (x : String × Nat) (c : Nat) :
    ∀ l : List (String × Nat), l.Pairwise (fun a b => b.2 ≤ a.2) →
    (insStable tagKeep x l).filter (fun p => p.2 == c)
      = if x.2 = c then l.filter (fun p => p.2 == c) ++ [x]
        else l.filter (fun p => p.2 == c) := by
  intro l
  induction l with
  | nil =>
    intro _
    by_cases h : x.2 = c <;> simp [insStable, List.filter_cons, h]
  | cons y ys ih =>
    intro hs
    obtain ⟨hy, hys⟩ := List.pairwise_cons.mp hs
    cases hk : tagKeep x y with
    | true =>
      have hins : insStable tagKeep x (y :: ys) = y :: insStable tagKeep x ys := by
        simp [insStable, hk]
      rw [hins, List.filter_cons, ih hys, List.filter_cons]
      by_cases hx : x.2 = c
      · rw [if_pos hx, if_pos hx]
        by_cases hyc : y.2 = c <;> simp [hyc]
      · rw [if_neg hx, if_neg hx]
    | false =>
      have hins : insStable tagKeep x (y :: ys) = x :: y :: ys := by
        simp [insStable, hk]
      have hxy : ¬ x.2 ≤ y.2 := by simpa [tagKeep] using hk
      rw [hins, List.filter_cons]
      by_cases hx : x.2 = c
      · rw [if_pos (by simpa using hx), if_pos hx]
        have hnil : (y :: ys).filter (fun p => p.2 == c) = [] := by
          rw [List.filter_eq_nil_iff]
          intro a ha
          have hay : a.2 ≤ y.2 := by
            rcases List.mem_cons.mp ha with rfl | ha'
            · exact le_refl _
            · exact hy a ha'
          simp only [beq_iff_eq]
          omega
        rw [hnil]
        simp
      · rw [if_neg (by simpa using hx), if_neg hx]

lemma sortTags_filter_aux (c : Nat) :
    ∀ (l acc : List (String × Nat)), acc.Pairwise (fun a b => b.2 ≤ a.2) →
      (l.foldl (fun acc x => insStable tagKeep x acc) acc).filter (fun p => p.2 == c)
        = acc.filter (fun p => p.2 == c) ++ l.filter (fun p => p.2 == c) := by
  intro l
  induction l with
  | nil => intro acc _; simp
  | cons x xs ih =>
    intro acc h
    rw [List.foldl_cons, ih _ (tagPairwise_insStable x h),
      filter_insStable_tag x c acc h]
    by_cases hx : x.2 = c
    · rw [if_pos hx, List.filter_cons, if_pos (by simpa using hx)]
      simp [List.append_assoc]
    · rw [if_neg hx, List.filter_cons, if_neg (by simpa using hx)]

lemma sortTagsDesc_filter (l : List (String × Nat)) (c : Nat) :
    (sortTagsDesc l).filter (fun p => p.2 == c) = l.filter (fun p => p.2 == c) := by
  unfold sortTagsDesc sortStable
  rw [sortTags_filter_aux c l [] (by simp)]
  simp

/-- C2: `topTags` has at most 5 entries, is sorted descending by count, each
entry's count is its tag's frequency over the accepted submissions' tags (so
never zero), and the sort is stable: for every count value, the entries
carrying it appear in exactly the order of the tag counter, whose key order is
the first-encounter order of the tags. -/
theorem topTags_spec (now : Int) (subs : List Submission) :
    (topTags now subs).length ≤ 5
    ∧ (topTags now subs).Pairwise (fun a b => b.2 ≤ a.2)
    ∧ (∀ p ∈ topTags now subs, 1 ≤ p.2 ∧ p.2 = (acceptedTags subs).count p.1)
    ∧ (∀ c : Nat,
        (sortTagsDesc (tagCounter (acceptedTags subs))).filter (fun p => p.2 == c)
          = (tagCounter (acceptedTags subs)).filter (fun p => p.2 == c)) := by
  have htags : (analyzeSubmissions now subs).problem_tags = acceptedTags subs := by
    unfold analyzeSubmissions
    rw [foldl_aggStep_tags]
    simp [initAggState]
  have htop : topTags now subs
      = (sortTagsDesc (tagCounter (acceptedTags subs))).take 5 := by
    unfold topTags
    rw [htags]
  refine ⟨?_, ?_, ?_, fun c => sortTagsDesc_filter _ c⟩
  · rw [htop, List.length_take]
    exact inf_le_left
  · rw [htop]
    exact List.Pairwise.sublist (List.take_sublist _ _) (sortTagsDesc_pairwise _)
  · intro p hp
    rw [htop] at hp
    have hp1 : p ∈ sortTagsDesc (tagCounter (acceptedTags subs)) :=
      List.Sublist.mem hp (List.take_sublist _ _)
    have hp2 : p ∈ tagCounter (acceptedTags subs) :=
      (mem_sortStable _ _ _).mp hp1
    exact ⟨tagCounter_pos _ p hp2, tagCounter_count _ p hp2⟩

/-! ## Claim theorems: the `add_coding_profile` tool -/

/-- C7: calling `add_coding_profile` with an empty handle returns the
handle-required message and leaves the registry untouched; no exception is
possible, the check precedes the tool's `try` block and the model is a total
function. -/
theorem add_coding_profile_empty_handle (cf lc cc : String → FetchResult)
    (registry : List String) (platform : String) :
    add_coding_profile cf lc cc registry platform ""
      = (handleRequiredText, registry) := rfl

/-- C10: the registry is mutated only by a successful fetch.  A fetch that
reports an error marker yields the not-found message with the registry
unchanged, and conversely any call that changed the registry had a successful
fetch. -/
theorem add_coding_profile_error_no_mutation (cf lc cc : String → FetchResult)
    (registry : List String) (platform handle : String) :
    (∀ msg, handle ≠ "" →
      platformFetch cf lc cc (pyLower platform) handle
        = some (FetchResult.error msg) →
      add_coding_profile cf lc cc registry platform handle
        = (notFoundText handle (pyLower platform), registry))
    ∧ ((add_coding_profile cf lc cc registry platform handle).2 ≠ registry →
      ∃ p, platformFetch cf lc cc (pyLower platform) handle
        = some (FetchResult.profile p)) := by
  constructor
  · intro msg hh hf
    simp [add_coding_profile, hh, hf]
  · intro hne
    by_cases hh : handle = ""
    · simp [add_coding_profile, hh] at hne
    · cases hpf : platformFetch cf lc cc (pyLower platform) handle with
      | none => simp [add_coding_profile, hh, hpf] at hne
      | some fr =>
        cases fr with
        | error msg => simp [add_coding_profile, hh, hpf] at hne
        | profile p => exact ⟨p, rfl⟩

/-- C10 witness: a Codeforces fetcher reporting the not-found marker for
handle `tourist` leaves the empty registry empty and produces the not-found
message. -/
theorem add_coding_profile_error_no_mutation_witness :
    add_coding_profile (fun _ => FetchResult.error "User not found")
      (fun h => FetchResult.profile (fetch_leetcode_profile h))
      (fun h => FetchResult.profile (fetch_codechef_profile h))
      [] "codeforces" "tourist"
      = (notFoundText "tourist" (pyLower "codeforces"), []) :=
  (add_coding_profile_error_no_mutation _ _ _ [] "codeforces" "tourist").1
    "User not found" (by decide) (by decide)

/-! ## Claim theorems: the recommendation renderer -/

/-- C9: the goal `"interview google"` is split into the company `"google"`
and the remaining goal `"interview"`; any extracted company belongs to the
known-company list, and with no extracted company the company-specific block
(lines 549-601) is empty. -/
theorem recommend_company_extraction :
    parseCompanyGoal "interview google" = ("google", "interview")
    ∧ (∀ g : String, (parseCompanyGoal g).1 = "" ∨ (parseCompanyGoal g).1 ∈ companies)
    ∧ (∀ ft ai : List String, ∀ mr ad : Int, companySection "" ft ai mr ad = "") := by
  refine ⟨by decide, ?_, ?_⟩
  · intro g
    cases hf : companies.find? (fun comp => strContainsB (pyLower g) comp) with
    | none =>
      left
      simp [parseCompanyGoal, hf]
    | some c =>
      right
      simpa [parseCompanyGoal, hf] using List.mem_of_find?_eq_some hf
  · intro ft ai mr ad
    rfl

/-! ## Claim theorems: the roast renderer -/

lemma roastDropParts_shape (p : Profile) :
    roastDropParts p = [] ∨ ∃ s, roastDropParts p = [s] := by
  simp only [roastDropParts]
  split
  · right; exact ⟨_, rfl⟩
  · left; rfl

lemma roastDiffParts_shape (p : Profile) :
    roastDiffParts p = [] ∨ ∃ s, roastDiffParts p = [s] := by
  simp only [roastDiffParts]
  split
  · split
    · right; exact ⟨_, rfl⟩
    · split
      · right; exact ⟨_, rfl⟩
      · left; rfl
  · left; rfl

lemma roastAccParts_15 (p : Profile) (h : p.accuracyRate = some 15) :
    roastAccParts p = [toString (15 : ℚ) ++ lotteryFragment] := by
  simp only [roastAccParts, h, Option.getD_some]
  rw [if_pos (by norm_num : (15 : ℚ) < 20)]

lemma strInfix_combineRoastParts (dp fp : List String) (a : String)
    (rest : List String)
    (hdp : dp = [] ∨ ∃ s, dp = [s]) (hfp : fp = [] ∨ ∃ s, fp = [s]) :
    strInfix a (combineRoastParts (dp ++ (fp ++ a :: rest))) := by
  rcases hdp with rfl | ⟨d, rfl⟩ <;> rcases hfp with rfl | ⟨f, rfl⟩
  · simp only [List.nil_append]
    cases rest with
    | nil =>
      show strInfix a ("You've " ++ a ++ "!")
      exact strInfix_appendR _ (strInfix_appendL _ (strInfix_self a))
    | cons r1 rest2 =>
      cases rest2 with
      | nil =>
        show strInfix a ("You've " ++ a ++ " and " ++ r1 ++ "!")
        exact strInfix_appendR _ (strInfix_appendR _ (strInfix_appendR _
          (strInfix_appendL _ (strInfix_self a))))
      | cons r2 rest3 =>
        show strInfix a
          ("Where do I even start? You've " ++ a ++ ", " ++ r1 ++ ", and " ++ r2 ++ "!")
        exact strInfix_appendR _ (strInfix_appendR _ (strInfix_appendR _
          (strInfix_appendR _ (strInfix_appendR _
            (strInfix_appendL _ (strInfix_self a))))))
  · simp only [List.nil_append, List.singleton_append]
    cases rest with
    | nil =>
      show strInfix a ("You've " ++ f ++ " and " ++ a ++ "!")
      exact strInfix_appendR _ (strInfix_appendL _ (strInfix_self a))
    | cons r1 rest2 =>
      show strInfix a
        ("Where do I even start? You've " ++ f ++ ", " ++ a ++ ", and " ++ r1 ++ "!")
      exact strInfix_appendR _ (strInfix_appendR _ (strInfix_appendR _
        (strInfix_appendL _ (strInfix_self a))))
  · simp only [List.singleton_append, List.nil_append]
    cases rest with
    | nil =>
      show strInfix a ("You've " ++ d ++ " and " ++ a ++ "!")
      exact strInfix_appendR _ (strInfix_appendL _ (strInfix_self a))
    | cons r1 rest2 =>
      show strInfix a
        ("Where do I even start? You've " ++ d ++ ", " ++ a ++ ", and " ++ r1 ++ "!")
      exact strInfix_appendR _ (strInfix_appendR _ (strInfix_appendR _
        (strInfix_appendL _ (strInfix_self a))))
  · simp only [List.singleton_append]
    show strInfix a
      ("Where do I even start? You've " ++ d ++ ", " ++ f ++ ", and " ++ a ++ "!")
    exact strInfix_appendR _ (strInfix_appendL _ (strInfix_self a))

lemma lottery_in_roastOne (p : Profile) (hacc : p.accuracyRate = some 15) :
    strInfix lotteryFragment (roastOne p) := by
  have hAcc := roastAccParts_15 p hacc
  obtain hdp := roastDropParts_shape p
  obtain hfp := roastDiffParts_shape p
  have hne : roastParts p ≠ [] := by
    simp [roastParts, hAcc]
  have hsh : roastParts p
      = roastDropParts p ++ (roastDiffParts p
        ++ (toString (15 : ℚ) ++ lotteryFragment)
          :: (roastTagParts p ++ (roastActivityParts p ++ roastPatternParts p))) := by
    rw [roastParts, hAcc]
    simp [List.append_assoc]
  have hcomb : strInfix (toString (15 : ℚ) ++ lotteryFragment)
      (combineRoastParts (roastParts p)) := by
    rw [hsh]
    exact strInfix_combineRoastParts _ _ _ _ hdp hfp
  simp only [roastOne]
  rw [if_neg hne]
  apply strInfix_appendR
  apply strInfix_appendL
  exact strInfix_trans (strInfix_appendL (toString (15 : ℚ))
    (strInfix_self lotteryFragment)) hcomb

/-- C8: any profile list containing a profile without error marker whose
`accuracyRate` is 15 produces a roast text containing the low-accuracy
"lottery" fragment. -/
theorem roast_lottery_fragment (pre post : List Profile) (p : Profile)
    (he : p.hasError = false) (hacc : p.accuracyRate = some 15) :
    strInfix lotteryFragment (generate_intelligent_roast (pre ++ p :: post)) := by
  have hmemf : p ∈ (pre ++ p :: post).filter (fun q => !q.hasError) := by
    rw [List.mem_filter]
    exact ⟨by simp, by simp [he]⟩
  have hmem : roastOne p
      ∈ ((pre ++ p :: post).filter (fun q => !q.hasError)).map roastOne :=
    List.mem_map_of_mem _ hmemf
  have hne : ((pre ++ p :: post).filter (fun q => !q.hasError)).map roastOne ≠ [] :=
    List.ne_nil_of_mem hmem
  simp only [generate_intelligent_roast]
  rw [if_neg hne]
  apply strInfix_appendR
  apply strInfix_appendL
  exact strInfix_trans (lottery_in_roastOne p hacc) (strInfix_joinSep _ hmem)

/-- A profile dict carrying only `accuracyRate = 15`. -/
def lotteryProfile : Profile := { emptyProfile with accuracyRate := some 15 }

/-- C8 witness: the fragment is in the roast of the singleton list. -/
theorem roast_lottery_fragment_witness :
    strInfix lotteryFragment (generate_intelligent_roast [lotteryProfile]) :=
  roast_lottery_fragment [] [] lotteryProfile rfl rfl

end CPCoach
